import Mathlib

/-!
A verification development for a guild-scoped wiki bot's backup/versioning
engine.  The relational store (`src/database.py`) and the restore views
(`src/views.py`) are shallowly embedded as pure functions over an explicit
`DB` state; timestamps are naturals, `SERIAL` columns are modelled with
explicit next-id counters, and SQL `ORDER BY backed_at DESC` is modelled by
a deterministic sort whose tie-break is insertion order (`id`).
-/

set_option maxHeartbeats 1000000

namespace CitadelWiki

/-- Row of `wiki_categories`. -/
structure Category where
  id : Nat
  guild_id : Nat
  name : String
  description : Option String
  deriving DecidableEq

/-- Row of `wiki_articles`. -/
structure Article where
  id : Nat
  guild_id : Nat
  category_id : Nat
  title : String
  content : String
  created_by_id : Option Nat
  created_by_name : Option String
  created_at : Nat
  updated_at : Nat
  deriving DecidableEq

/-- Row of `wiki_contributors`. -/
structure Contributor where
  article_id : Nat
  user_id : Nat
  count : Nat
  deriving DecidableEq

/-- Row of `wiki_article_backups` (personal backups). `article_id` is a weak
reference (`ON DELETE SET NULL`). -/
structure PersonalBackup where
  id : Nat
  guild_id : Nat
  article_id : Option Nat
  category_name : String
  title : String
  content : String
  created_by_id : Option Nat
  created_by_name : Option String
  created_at : Option Nat
  updated_at : Option Nat
  op_type : String
  actor_id : Nat
  backed_at : Nat
  deriving DecidableEq

/-- Row of `wiki_snapshot_backups`. -/
structure SnapshotBackup where
  id : Nat
  guild_id : Nat
  article_id : Option Nat
  category_name : String
  title : String
  content : String
  created_by_id : Option Nat
  created_by_name : Option String
  created_at : Option Nat
  updated_at : Option Nat
  snapshot_at : Nat
  deriving DecidableEq

/-- The whole store: the six tables plus the next value of each `SERIAL`
sequence.  `wiki_maintenance_meta` is its singleton `last_cleanup_at` cell. -/
structure DB where
  categories : List Category
  articles : List Article
  contributors : List Contributor
  backups : List PersonalBackup
  snapshots : List SnapshotBackup
  last_cleanup_at : Option Nat
  next_category_id : Nat
  next_article_id : Nat
  next_backup_id : Nat
  next_snapshot_id : Nat
  deriving DecidableEq

/-- `geKey a b`: backup `a` is at least as recent as `b`, comparing
`backed_at` and breaking ties by insertion order (`id`).  This is the
deterministic reading of `ORDER BY backed_at DESC` used throughout. -/
def geKey (a b : PersonalBackup) : Prop :=
  b.backed_at < a.backed_at ∨ (b.backed_at = a.backed_at ∧ b.id ≤ a.id)

instance : DecidableRel geKey := fun a b => by
  unfold geKey; infer_instance

instance : IsTotal PersonalBackup geKey where
  total a b := by unfold geKey; omega

instance : IsTrans PersonalBackup geKey where
  trans a b c hab hbc := by unfold geKey at hab hbc ⊢; omega

instance : IsRefl PersonalBackup geKey :=
  ⟨fun _ => Or.inr ⟨rfl, Nat.le_refl _⟩⟩

/-- Rows sorted most-recent-first. -/
def sortByNewest (l : List PersonalBackup) : List PersonalBackup :=
  List.insertionSort geKey l

/-- The `(guild_id, actor_id)` pair filter used by the retention policy. -/
def pairB (g actor : Nat) (b : PersonalBackup) : Bool :=
  b.guild_id == g && b.actor_id == actor

/-- The `wiki_articles JOIN wiki_categories` row fetched by
`db_backup_current_article`. -/
def joinedArticle (db : DB) (article_id : Nat) : Option (Article × String) :=
  match db.articles.find? (fun a => a.id == article_id) with
  | none => none
  | some a =>
    match db.categories.find? (fun c => c.id == a.category_id) with
    | none => none
    | some c => some (a, c.name)

/-- The personal-backup row inserted by `db_backup_current_article`. -/
def mkBackupRow (db : DB) (a : Article) (cname op_type : String)
    (actor_id now : Nat) : PersonalBackup :=
  { id := db.next_backup_id
    guild_id := a.guild_id
    article_id := some a.id
    category_name := cname
    title := a.title
    content := a.content
    created_by_id := a.created_by_id
    created_by_name := a.created_by_name
    created_at := some a.created_at
    updated_at := some a.updated_at
    op_type := op_type
    actor_id := actor_id
    backed_at := now }

/-- Ids of the five most-recent backups of the `(guild_id, actor_id)` pair:
the `SELECT id ... ORDER BY backed_at DESC LIMIT 5` subquery of the
retention `DELETE`. -/
def retentionKeepIds (backups1 : List PersonalBackup) (g actor : Nat) : List Nat :=
  ((sortByNewest (backups1.filter (pairB g actor))).take 5).map (fun b => b.id)

/-- `db_backup_current_article`: capture the current joined article state as
a personal backup (no-op when the article is gone), then delete every row of
the actor's `(guild_id, actor_id)` pair whose id is not among the five
most recent. -/
def db_backup_current_article (db : DB) (article_id : Nat) (op_type : String)
    (actor_id now : Nat) : DB :=
  match joinedArticle db article_id with
  | none => db
  | some (a, cname) =>
    let newB := mkBackupRow db a cname op_type actor_id now
    let backups1 := db.backups ++ [newB]
    let keep := retentionKeepIds backups1 a.guild_id actor_id
    { db with
      backups := backups1.filter (fun b =>
        !(pairB a.guild_id actor_id b) || keep.contains b.id)
      next_backup_id := db.next_backup_id + 1 }

/-- `db_add_category`. -/
def db_add_category (db : DB) (guild_id : Nat) (name : String)
    (description : Option String) : String × DB :=
  match db.categories.find? (fun c => c.guild_id == guild_id && c.name == name) with
  | some _ => ("dup", db)
  | none =>
    ("ok",
      { db with
        categories := db.categories ++
          [{ id := db.next_category_id, guild_id := guild_id, name := name,
             description := description }]
        next_category_id := db.next_category_id + 1 })

/-- Hard-delete the given article ids, with the schema's referential
actions: contributors cascade, backup and snapshot references are nulled. -/
def removeArticles (db : DB) (ids : List Nat) : DB :=
  { db with
    articles := db.articles.filter (fun a => !(ids.contains a.id))
    contributors := db.contributors.filter (fun c => !(ids.contains c.article_id))
    backups := db.backups.map (fun b =>
      match b.article_id with
      | some aid => if ids.contains aid then { b with article_id := none } else b
      | none => b)
    snapshots := db.snapshots.map (fun s =>
      match s.article_id with
      | some aid => if ids.contains aid then { s with article_id := none } else s
      | none => s) }

/-- `db_delete_category`: back up every article of the category, then delete
the category (cascading its articles). -/
def db_delete_category (db : DB) (guild_id : Nat) (name : String)
    (actor_id now : Nat) : (String × Nat) × DB :=
  match db.categories.find? (fun c => c.guild_id == guild_id && c.name == name) with
  | none => (("no_category", 0), db)
  | some cat =>
    let artIds := (db.articles.filter (fun a => a.category_id == cat.id)).map (fun a => a.id)
    let db1 := artIds.foldl
      (fun d aid => db_backup_current_article d aid "delete" actor_id now) db
    let db2 := removeArticles db1 artIds
    (("ok", artIds.length),
      { db2 with categories := db2.categories.filter (fun c => !(c.id == cat.id)) })

/-- `db_get_backups_for_user`: the actor's recent backups, gated by
`last_cleanup_at` when a maintenance cycle has run. -/
def db_get_backups_for_user (db : DB) (guild_id user_id lim : Nat) :
    List PersonalBackup :=
  let eligible :=
    match db.last_cleanup_at with
    | none => db.backups.filter (pairB guild_id user_id)
    | some t => db.backups.filter (fun b => pairB guild_id user_id b && t < b.backed_at)
  (sortByNewest eligible).take lim

/-- The live-article branch of `db_check_backup_conflict`: look only at the
single most recent later backup on the same article.  The guard on the later
row's actor mirrors the source's
`later["actor_id"] and later["actor_id"] != actor_id`
(a null or zero actor is falsy there, hence no conflict). -/
def conflictForLive (db : DB) (b : PersonalBackup) (aid : Nat) : String × Option Nat :=
  match (sortByNewest (db.backups.filter
      (fun x => x.article_id == some aid && b.backed_at < x.backed_at))).head? with
  | none => ("none", none)
  | some l =>
    if l.actor_id ≠ 0 ∧ l.actor_id ≠ b.actor_id then
      if l.op_type == "edit" then ("edited_by_other", some l.actor_id)
      else if l.op_type == "delete" then ("deleted_by_other", some l.actor_id)
      else ("none", none)
    else ("none", none)

/-- The orphaned branch of `db_check_backup_conflict`: match later
`delete`-tagged backups by `(guild_id, category_name, title)`. -/
def conflictForOrphan (db : DB) (b : PersonalBackup) : String × Option Nat :=
  match (sortByNewest (db.backups.filter (fun x =>
      x.guild_id == b.guild_id && x.category_name == b.category_name &&
      x.title == b.title && x.op_type == "delete" &&
      b.backed_at < x.backed_at))).head? with
  | none => ("none", none)
  | some l =>
    if l.actor_id ≠ 0 ∧ l.actor_id ≠ b.actor_id then
      ("deleted_by_other", some l.actor_id)
    else ("none", none)

/-- `db_check_backup_conflict`. -/
def db_check_backup_conflict (db : DB) (backup_id : Nat) : String × Option Nat :=
  match db.backups.find? (fun b => b.id == backup_id) with
  | none => ("none", none)
  | some b =>
    match b.article_id with
    | some aid => conflictForLive db b aid
    | none => conflictForOrphan db b

/-- `db_upsert_article` (creation only).  A missing category raises
`ValueError` in the source, modelled as `Except.error`; a duplicate
`(guild, category, title)` is the discriminated `"dup"` result. -/
def db_upsert_article (db : DB) (guild_id : Nat) (category_name title content : String)
    (user_id : Nat) (user_name : String) (now : Nat) :
    Except String ((String × Option Nat) × DB) :=
  match db.categories.find? (fun c => c.guild_id == guild_id && c.name == category_name) with
  | none => Except.error "카테고리가 존재하지 않습니다."
  | some cat =>
    match db.articles.find? (fun a =>
        a.guild_id == guild_id && a.category_id == cat.id && a.title == title) with
    | some _ => Except.ok (("dup", none), db)
    | none =>
      let aid := db.next_article_id
      Except.ok (("created", some 1),
        { db with
          articles := db.articles ++
            [{ id := aid, guild_id := guild_id, category_id := cat.id, title := title,
               content := content, created_by_id := some user_id,
               created_by_name := some user_name, created_at := now, updated_at := now }]
          contributors := db.contributors ++
            [{ article_id := aid, user_id := user_id, count := 1 }]
          next_article_id := aid + 1 })

/-- The `UPDATE wiki_articles SET title=$1, content=$2, updated_at=NOW()
WHERE id=$3` step of an edit. -/
def updateArticleRow (db : DB) (aid : Nat) (nt nc : String) (now : Nat) : DB :=
  { db with articles := db.articles.map (fun a =>
      if a.id == aid then { a with title := nt, content := nc, updated_at := now }
      else a) }

/-- The contributor upsert
(`INSERT ... ON CONFLICT DO UPDATE SET count = count + 1`). -/
def bumpContributor (db : DB) (aid uid : Nat) : DB :=
  match db.contributors.find? (fun c => c.article_id == aid && c.user_id == uid) with
  | some _ =>
    { db with contributors := db.contributors.map (fun c =>
        if c.article_id == aid && c.user_id == uid then { c with count := c.count + 1 }
        else c) }
  | none =>
    { db with contributors := db.contributors ++
        [{ article_id := aid, user_id := uid, count := 1 }] }

/-- The `SELECT count FROM wiki_contributors WHERE ...` read-back after the
upsert (the source defaults to 1 when the row is absent). -/
def contributorCount (db : DB) (aid uid : Nat) : Nat :=
  match db.contributors.find? (fun c => c.article_id == aid && c.user_id == uid) with
  | some c => c.count
  | none => 1

/-- The duplicate-title check performed when an edit changes the title. -/
def editDupCheck (db : DB) (g cid : Nat) (ot nt : String) : Bool :=
  if nt ≠ ot then
    (db.articles.find? (fun a =>
      a.guild_id == g && a.category_id == cid && a.title == nt)).isSome
  else false

/-- `db_edit_article`: backup before mutate, then update title/content and
upsert the contributor counter. -/
def db_edit_article (db : DB) (guild_id : Nat)
    (category_name old_title new_title new_content : String)
    (user_id now : Nat) : (String × Option Nat) × DB :=
  match db.categories.find? (fun c => c.guild_id == guild_id && c.name == category_name) with
  | none => (("no_category", none), db)
  | some cat =>
    match db.articles.find? (fun a =>
        a.guild_id == guild_id && a.category_id == cat.id && a.title == old_title) with
    | none => (("no_article", none), db)
    | some art =>
      if editDupCheck db guild_id cat.id old_title new_title
      then (("dup_title", none), db)
      else
        let db3 := bumpContributor
          (updateArticleRow (db_backup_current_article db art.id "edit" user_id now)
            art.id new_title new_content now) art.id user_id
        (("ok", some (contributorCount db3 art.id user_id)), db3)

/-- `db_delete_article`: backup before delete, then hard-delete the row. -/
def db_delete_article (db : DB) (guild_id : Nat) (category_name title : String)
    (actor_id now : Nat) : String × DB :=
  match db.categories.find? (fun c => c.guild_id == guild_id && c.name == category_name) with
  | none => ("no_category", db)
  | some cat =>
    match db.articles.find? (fun a =>
        a.guild_id == guild_id && a.category_id == cat.id && a.title == title) with
    | none => ("no_article", db)
    | some art =>
      let db1 := db_backup_current_article db art.id "delete" actor_id now
      ("ok", removeArticles db1 [art.id])

/-- The snapshot-insertion loop of `compact_backups_once` (one snapshot per
currently live joined article). -/
def insertSnapshots (now : Nat) (db : DB) : List Article → DB
  | [] => db
  | a :: rest =>
    match db.categories.find? (fun c => c.id == a.category_id) with
    | none => insertSnapshots now db rest
    | some c =>
      insertSnapshots now
        { db with
          snapshots := db.snapshots ++
            [{ id := db.next_snapshot_id, guild_id := a.guild_id, article_id := some a.id,
               category_name := c.name, title := a.title, content := a.content,
               created_by_id := a.created_by_id, created_by_name := a.created_by_name,
               created_at := some a.created_at, updated_at := some a.updated_at,
               snapshot_at := now }]
          next_snapshot_id := db.next_snapshot_id + 1 } rest

def threeDays : Nat := 3 * 24 * 60 * 60

/-- `b` is the `MAX(id)` row of its `(article_id, actor_id)` group among
non-orphaned personal backups: the `latest` CTE membership test of the
compaction step. -/
def isGroupLatest (backups : List PersonalBackup) (b : PersonalBackup) : Bool :=
  b.article_id.isSome &&
    backups.all (fun c =>
      !(c.article_id == b.article_id && c.actor_id == b.actor_id) || c.id ≤ b.id)

/-- `compact_backups_once`: snapshot all live articles, expire snapshots
older than three days, keep only the newest personal backup per
`(article_id, actor_id)` while deleting every orphaned one, and record the
cleanup time. -/
def compact_backups_once (db : DB) (now : Nat) : DB :=
  let db1 := insertSnapshots now db db.articles
  let db2 := { db1 with
    snapshots := db1.snapshots.filter (fun s => !(s.snapshot_at + threeDays < now)) }
  let db3 := { db2 with
    backups := db2.backups.filter (fun b => isGroupLatest db2.backups b) }
  { db3 with last_cleanup_at := some now }

/-- The category resolution step shared by both restore views: use the
existing `(guild_id, name)` category or create a bare one (name only). -/
def resolveCategory (db : DB) (g : Nat) (name : String) : Nat × DB :=
  match db.categories.find? (fun c => c.guild_id == g && c.name == name) with
  | some c => (c.id, db)
  | none =>
    (db.next_category_id,
      { db with
        categories := db.categories ++
          [{ id := db.next_category_id, guild_id := g, name := name,
             description := none }]
        next_category_id := db.next_category_id + 1 })

/-- Does the restored backup's weak article reference still resolve? -/
def restoreTargetExists (db : DB) (article_id : Option Nat) : Bool :=
  match article_id with
  | some aid => (db.articles.find? (fun a => a.id == aid)).isSome
  | none => false

/-- The in-place `UPDATE wiki_articles SET ...` of a restore. -/
def overwriteArticle (db : DB) (cid : Nat) (b : PersonalBackup) (now : Nat) : DB :=
  { db with articles := db.articles.map (fun a =>
      if b.article_id == some a.id then
        { a with
          category_id := cid, title := b.title, content := b.content,
          created_by_id := b.created_by_id, created_by_name := b.created_by_name,
          created_at := b.created_at.getD now, updated_at := b.updated_at.getD now }
      else a) }

/-- The `INSERT INTO wiki_articles ... RETURNING id` of a restore whose
article is gone. -/
def insertRestoredArticle (db : DB) (g cid : Nat) (b : PersonalBackup) (now : Nat) : DB :=
  { db with
    articles := db.articles ++
      [{ id := db.next_article_id, guild_id := g, category_id := cid,
         title := b.title, content := b.content, created_by_id := b.created_by_id,
         created_by_name := b.created_by_name, created_at := b.created_at.getD now,
         updated_at := b.updated_at.getD now }]
    next_article_id := db.next_article_id + 1 }

/-- `RestoreBackupView._restore`: resolve (or recreate bare) the category,
overwrite the article in place when it still exists or insert it anew
otherwise, then delete the consumed backup row. -/
def restoreBackup (db : DB) (guild_id backup_id now : Nat) : String × DB :=
  match db.backups.find? (fun b => b.id == backup_id) with
  | none => ("not_found", db)
  | some b =>
    let resolved := resolveCategory db guild_id b.category_name
    let db2 :=
      if restoreTargetExists resolved.2 b.article_id then
        overwriteArticle resolved.2 resolved.1 b now
      else insertRestoredArticle resolved.2 guild_id resolved.1 b now
    ("ok", { db2 with backups := db2.backups.filter (fun x => !(x.id == b.id)) })

/-- The in-place overwrite of a snapshot restore. -/
def snapOverwriteArticle (db : DB) (cid : Nat) (s : SnapshotBackup) (now : Nat) : DB :=
  { db with articles := db.articles.map (fun a =>
      if s.article_id == some a.id then
        { a with
          category_id := cid, title := s.title, content := s.content,
          created_by_id := s.created_by_id, created_by_name := s.created_by_name,
          created_at := s.created_at.getD now, updated_at := s.updated_at.getD now }
      else a) }

/-- The insert-as-new of a snapshot restore whose article is gone. -/
def snapInsertArticle (db : DB) (g cid : Nat) (s : SnapshotBackup) (now : Nat) : DB :=
  { db with
    articles := db.articles ++
      [{ id := db.next_article_id, guild_id := g, category_id := cid,
         title := s.title, content := s.content, created_by_id := s.created_by_id,
         created_by_name := s.created_by_name, created_at := s.created_at.getD now,
         updated_at := s.updated_at.getD now }]
    next_article_id := db.next_article_id + 1 }

/-- `SnapshotRestoreView._restore`: same reconciliation as a personal
restore, but fetched by `(id, guild_id)` and without consuming the
snapshot row. -/
def restoreSnapshot (db : DB) (guild_id snapshot_id now : Nat) : String × DB :=
  match db.snapshots.find? (fun s => s.id == snapshot_id && s.guild_id == guild_id) with
  | none => ("not_found", db)
  | some s =>
    let resolved := resolveCategory db guild_id s.category_name
    let db2 :=
      if restoreTargetExists resolved.2 s.article_id then
        snapOverwriteArticle resolved.2 resolved.1 s now
      else snapInsertArticle resolved.2 guild_id resolved.1 s now
    ("ok", db2)

/-- Well-formedness of a reachable store: distinct primary keys below their
sequence counters, backup rows only ever written with `op_type` `edit` or
`delete`, actors are (nonzero) Discord snowflake ids, the capture timestamp
is monotone in insertion order, and captured rows carry the article's
non-null timestamps. -/
def WF (db : DB) : Prop :=
  (db.backups.map (fun b => b.id)).Nodup ∧
  (∀ b ∈ db.backups, b.id < db.next_backup_id) ∧
  (db.articles.map (fun a => a.id)).Nodup ∧
  (∀ a ∈ db.articles, a.id < db.next_article_id) ∧
  (db.categories.map (fun c => c.id)).Nodup ∧
  (∀ c ∈ db.categories, c.id < db.next_category_id) ∧
  (∀ b ∈ db.backups, b.op_type = "edit" ∨ b.op_type = "delete") ∧
  (∀ b ∈ db.backups, b.actor_id ≠ 0) ∧
  (∀ b ∈ db.backups, ∀ c ∈ db.backups, b.id ≤ c.id → b.backed_at ≤ c.backed_at) ∧
  (∀ b ∈ db.backups, b.created_at.isSome ∧ b.updated_at.isSome)

instance (db : DB) : Decidable (WF db) := by
  unfold WF; infer_instance

/-- Clock monotonicity at the moment of a mutation: no stored backup is
from the future. -/
def ClockOK (db : DB) (now : Nat) : Prop :=
  ∀ b ∈ db.backups, b.backed_at ≤ now

instance (db : DB) (now : Nat) : Decidable (ClockOK db now) := by
  unfold ClockOK; infer_instance


/-! ### General lemmas about the ordering and the list primitives -/

theorem geKey_backed_le {a b : PersonalBackup} (h : geKey a b) :
    b.backed_at ≤ a.backed_at := by
  unfold geKey at h; omega

theorem geKey_antisymm_ids {a b : PersonalBackup} (h1 : geKey a b) (h2 : geKey b a) :
    a.id = b.id := by
  unfold geKey at h1 h2; omega

theorem sortByNewest_perm (l : List PersonalBackup) : (sortByNewest l).Perm l :=
  List.perm_insertionSort _ _

theorem sortByNewest_sorted (l : List PersonalBackup) :
    List.Sorted geKey (sortByNewest l) :=
  List.sorted_insertionSort _ _

/-- `SELECT ... WHERE key=$1` on a table whose key column is unique finds
exactly the present row. -/
theorem find?_key {α : Type} (f : α → Nat) :
    ∀ {l : List α}, (l.map f).Nodup → ∀ {b : α}, b ∈ l →
      l.find? (fun x => f x == f b) = some b := by
  intro l
  induction l with
  | nil => intro _ b hb; cases hb
  | cons a t ih =>
    intro hnd b hb
    rw [List.map_cons, List.nodup_cons] at hnd
    rcases List.mem_cons.1 hb with rfl | hb
    · exact List.find?_cons_of_pos _ (by simp)
    · have hne : f a ≠ f b := fun he => hnd.1 (he ▸ List.mem_map_of_mem f hb)
      rw [List.find?_cons_of_neg _ (by simpa using hne), ih hnd.2 hb]

theorem exists_max_id : ∀ (l : List PersonalBackup), l ≠ [] →
    ∃ b ∈ l, ∀ c ∈ l, c.id ≤ b.id := by
  intro l
  induction l with
  | nil => intro h; exact absurd rfl h
  | cons a t ih =>
    intro _
    cases t with
    | nil => exact ⟨a, by simp, by simp⟩
    | cons x xs =>
      obtain ⟨m, hm, hmax⟩ := ih (by simp)
      by_cases hc : m.id ≤ a.id
      · refine ⟨a, List.mem_cons_self _ _, ?_⟩
        intro c hc2
        rcases List.mem_cons.1 hc2 with rfl | h2
        · exact Nat.le_refl _
        · exact Nat.le_trans (hmax c h2) hc
      · refine ⟨m, List.mem_cons_of_mem _ hm, ?_⟩
        intro c hc2
        rcases List.mem_cons.1 hc2 with rfl | h2
        · omega
        · exact hmax c h2

/-- The head of a most-recent-first sorted list dominates every element. -/
theorem head?_max {l : List PersonalBackup} (hs : List.Sorted geKey l)
    {h0 : PersonalBackup} (hh : l.head? = some h0) :
    h0 ∈ l ∧ ∀ c ∈ l, geKey h0 c := by
  cases l with
  | nil => cases hh
  | cons a t =>
    simp only [List.head?_cons, Option.some.injEq] at hh
    subst hh
    refine ⟨List.mem_cons_self _ _, ?_⟩
    intro c hc
    rcases List.mem_cons.1 hc with rfl | hc
    · exact Or.inr ⟨rfl, Nat.le_refl _⟩
    · exact List.rel_of_sorted_cons hs c hc

/-- Keeping the rows whose ids sit in the first `n` of the sorted order is,
up to permutation, taking the first `n` of the sorted order. -/
theorem filter_keep_perm_take (pr : List PersonalBackup)
    (hnd : (pr.map (fun b => b.id)).Nodup) (n : Nat) :
    (pr.filter (fun b =>
        (((sortByNewest pr).take n).map (fun x => x.id)).contains b.id)).Perm
      ((sortByNewest pr).take n) := by
  have hperm := sortByNewest_perm pr
  have hnd2 : ((sortByNewest pr).map (fun b => b.id)).Nodup :=
    ((hperm.map _).nodup_iff).2 hnd
  have hndl : (sortByNewest pr).Nodup := hnd2.of_map _
  have h1 : (pr.filter (fun b =>
      (((sortByNewest pr).take n).map (fun x => x.id)).contains b.id)).Perm
      ((sortByNewest pr).filter (fun b =>
      (((sortByNewest pr).take n).map (fun x => x.id)).contains b.id)) :=
    (hperm.filter _).symm
  have htake : ((sortByNewest pr).take n).filter (fun b =>
      (((sortByNewest pr).take n).map (fun x => x.id)).contains b.id)
      = (sortByNewest pr).take n := by
    apply List.filter_eq_self.2
    intro x hx
    simpa using List.mem_map_of_mem (fun b => b.id) hx
  have hdrop : ((sortByNewest pr).drop n).filter (fun b =>
      (((sortByNewest pr).take n).map (fun x => x.id)).contains b.id)
      = [] := by
    rw [List.filter_eq_nil_iff]
    intro d hd hcon
    simp only [List.contains_iff_exists_mem_beq, List.mem_map] at hcon
    obtain ⟨i, ⟨k, hk, hki⟩, hbeq⟩ := hcon
    have hkd : k.id = d.id := by
      subst hki
      exact ((Nat.beq_eq ..).mp (by simpa using hbeq)).symm
    have hkd2 : k = d :=
      List.inj_on_of_nodup_map hnd2 (List.mem_of_mem_take hk)
        (List.mem_of_mem_drop hd) hkd
    exact (List.disjoint_take_drop hndl (Nat.le_refl n)) hk (hkd2 ▸ hd)
  have h2 : (sortByNewest pr).filter (fun b =>
      (((sortByNewest pr).take n).map (fun x => x.id)).contains b.id)
      = (sortByNewest pr).take n := by
    calc (sortByNewest pr).filter (fun b =>
          (((sortByNewest pr).take n).map (fun x => x.id)).contains b.id)
        = ((sortByNewest pr).take n ++ (sortByNewest pr).drop n).filter (fun b =>
          (((sortByNewest pr).take n).map (fun x => x.id)).contains b.id) := by
          rw [List.take_append_drop]
      _ = (sortByNewest pr).take n := by
          rw [List.filter_append, htake, hdrop, List.append_nil]
  refine h1.trans ?_
  rw [h2]

/-- An element strictly more recent than every other element of `l` is among
the first `n > 0` of the sorted order. -/
theorem strict_max_mem_take (l : List PersonalBackup)
    (hnd : (l.map (fun b => b.id)).Nodup) {m : PersonalBackup} (hm : m ∈ l)
    (hmax : ∀ c ∈ l, c.id ≠ m.id →
      c.backed_at < m.backed_at ∨ (c.backed_at = m.backed_at ∧ c.id < m.id))
    {n : Nat} (hn : 0 < n) :
    m ∈ (sortByNewest l).take n := by
  have hperm := sortByNewest_perm l
  have hnd2 : ((sortByNewest l).map (fun b => b.id)).Nodup :=
    ((hperm.map _).nodup_iff).2 hnd
  have hndl : (sortByNewest l).Nodup := hnd2.of_map _
  have hm2 : m ∈ sortByNewest l := hperm.mem_iff.2 hm
  have hsplit : m ∈ (sortByNewest l).take n ++ (sortByNewest l).drop n := by
    rw [List.take_append_drop]; exact hm2
  rcases List.mem_append.1 hsplit with h | h
  · exact h
  · exfalso
    have hlen : n < (sortByNewest l).length := by
      have : (sortByNewest l).drop n ≠ [] := List.ne_nil_of_mem h
      rw [ne_eq, List.drop_eq_nil_iff] at this
      omega
    have htk : (sortByNewest l).take n ≠ [] := by
      apply List.ne_nil_of_length_pos
      rw [List.length_take]
      omega
    obtain ⟨t0, ht0⟩ := List.exists_mem_of_ne_nil _ htk
    have hrel : geKey t0 m :=
      (sortByNewest_sorted l).rel_of_mem_take_of_mem_drop ht0 h
    by_cases hid : t0.id = m.id
    · have : t0 = m :=
        List.inj_on_of_nodup_map hnd2 (List.mem_of_mem_take ht0) hm2 hid
      subst this
      exact (List.disjoint_take_drop hndl (Nat.le_refl n)) ht0 h
    · have ht0l : t0 ∈ l := hperm.mem_iff.1 (List.mem_of_mem_take ht0)
      have := hmax t0 ht0l hid
      unfold geKey at hrel
      omega

/-! ### The retention step of `db_backup_current_article` -/

/-- The backup table produced by inserting `newB` and then running the
keep-five retention `DELETE` for the pair `(g, actor)`. -/
def retentionResult (old : List PersonalBackup) (newB : PersonalBackup)
    (g actor : Nat) : List PersonalBackup :=
  (old ++ [newB]).filter (fun b =>
    !(pairB g actor b) || (retentionKeepIds (old ++ [newB]) g actor).contains b.id)

theorem capture_backups_eq (db : DB) (aid : Nat) (op : String) (actor now : Nat)
    (a : Article) (cname : String) (hj : joinedArticle db aid = some (a, cname)) :
    (db_backup_current_article db aid op actor now).backups
      = retentionResult db.backups (mkBackupRow db a cname op actor now)
          a.guild_id actor := by
  unfold db_backup_current_article
  rw [hj]
  rfl

theorem capture_frame (db : DB) (aid : Nat) (op : String) (actor now : Nat) :
    (db_backup_current_article db aid op actor now).articles = db.articles ∧
    (db_backup_current_article db aid op actor now).categories = db.categories ∧
    (db_backup_current_article db aid op actor now).contributors = db.contributors ∧
    (db_backup_current_article db aid op actor now).snapshots = db.snapshots ∧
    (db_backup_current_article db aid op actor now).last_cleanup_at = db.last_cleanup_at ∧
    (db_backup_current_article db aid op actor now).next_article_id = db.next_article_id ∧
    (db_backup_current_article db aid op actor now).next_category_id = db.next_category_id := by
  unfold db_backup_current_article
  cases joinedArticle db aid with
  | none => exact ⟨rfl, rfl, rfl, rfl, rfl, rfl, rfl⟩
  | some p =>
    cases p
    exact ⟨rfl, rfl, rfl, rfl, rfl, rfl, rfl⟩

theorem retention_core (old : List PersonalBackup) (newB : PersonalBackup)
    (g actor : Nat)
    (hnd1 : (old.map (fun b => b.id)).Nodup)
    (hfresh : ∀ c ∈ old, c.id ≠ newB.id)
    (hP : pairB g actor newB = true) :
    ((retentionResult old newB g actor).filter (pairB g actor)).Perm
        ((sortByNewest ((old ++ [newB]).filter (pairB g actor))).take 5) ∧
    ((retentionResult old newB g actor).filter (pairB g actor)).length
        = min 5 ((old.filter (pairB g actor)).length + 1) ∧
    (∀ g2 u2, ¬(g2 = g ∧ u2 = actor) →
      (retentionResult old newB g actor).filter (pairB g2 u2)
        = old.filter (pairB g2 u2)) ∧
    (∀ k ∈ (retentionResult old newB g actor).filter (pairB g actor),
      ∀ d ∈ (old ++ [newB]).filter (pairB g actor),
        d ∉ retentionResult old newB g actor → geKey k d) := by
  have hnd_b1 : (((old ++ [newB]).map (fun b => b.id)).Nodup) := by
    rw [List.map_append, List.nodup_append]
    refine ⟨hnd1, by simp, ?_⟩
    intro x hx hy
    simp only [List.map_cons, List.map_nil, List.mem_singleton] at hy
    obtain ⟨c, hc, hcid⟩ := List.mem_map.1 hx
    exact hfresh c hc (by omega)
  have hnd_pair : ((((old ++ [newB]).filter (pairB g actor)).map (fun b => b.id)).Nodup) :=
    hnd_b1.sublist (((List.filter_sublist _)).map _)
  have hsingle : [newB].filter (pairB g actor) = [newB] := by
    simp [List.filter, hP]
  have hpair_split : (old ++ [newB]).filter (pairB g actor)
      = old.filter (pairB g actor) ++ [newB] := by
    rw [List.filter_append, hsingle]
  -- the survivors of the acted-on pair are exactly the five most recent
  have hff : (retentionResult old newB g actor).filter (pairB g actor)
      = ((old ++ [newB]).filter (pairB g actor)).filter (fun b =>
          (retentionKeepIds (old ++ [newB]) g actor).contains b.id) := by
    unfold retentionResult
    rw [List.filter_filter, List.filter_filter]
    apply List.filter_congr
    intro x _
    cases hPx : pairB g actor x <;>
      cases hKx : (retentionKeepIds (old ++ [newB]) g actor).contains x.id <;>
      simp [hPx, hKx]
  have hperm : ((retentionResult old newB g actor).filter (pairB g actor)).Perm
      ((sortByNewest ((old ++ [newB]).filter (pairB g actor))).take 5) := by
    rw [hff]
    unfold retentionKeepIds
    exact filter_keep_perm_take _ hnd_pair 5
  refine ⟨hperm, ?_, ?_, ?_⟩
  · -- length
    rw [hperm.length_eq, List.length_take,
      (sortByNewest_perm ((old ++ [newB]).filter (pairB g actor))).length_eq,
      hpair_split, List.length_append]
    simp
  · -- untouched pairs
    intro g2 u2 hne
    unfold retentionResult
    rw [List.filter_filter]
    have hcongr : (old ++ [newB]).filter (fun b =>
        pairB g2 u2 b &&
          (!(pairB g actor b) ||
            (retentionKeepIds (old ++ [newB]) g actor).contains b.id))
        = (old ++ [newB]).filter (pairB g2 u2) := by
      apply List.filter_congr
      intro x _
      cases hx : pairB g2 u2 x
      · simp
      · have hxg : x.guild_id = g2 ∧ x.actor_id = u2 := by
          simpa [pairB] using hx
        have hPx : pairB g actor x = false := by
          have hne2 : ¬ (x.guild_id = g ∧ x.actor_id = actor) := by
            intro hh
            exact hne ⟨by rw [← hxg.1, hh.1], by rw [← hxg.2, hh.2]⟩
          simp only [pairB, Bool.and_eq_false_iff]
          rcases eq_or_ne x.guild_id g with hg | hg
          · right
            have hu : x.actor_id ≠ actor := fun hu => hne2 ⟨hg, hu⟩
            simpa using hu
          · left
            simpa using hg
        simp [hPx]
    rw [hcongr, List.filter_append]
    have hsingle2 : [newB].filter (pairB g2 u2) = [] := by
      have hPn : pairB g2 u2 newB = false := by
        have hg : newB.guild_id = g ∧ newB.actor_id = actor := by
          simpa [pairB] using hP
        have hne2 : ¬ (newB.guild_id = g2 ∧ newB.actor_id = u2) := by
          intro hh
          exact hne ⟨by rw [← hh.1, hg.1], by rw [← hh.2, hg.2]⟩
        simp only [pairB, Bool.and_eq_false_iff]
        rcases eq_or_ne newB.guild_id g2 with h2 | h2
        · right
          have hu : newB.actor_id ≠ u2 := fun hu => hne2 ⟨h2, hu⟩
          simpa using hu
        · left
          simpa using h2
      simp [List.filter, hPn]
    rw [hsingle2, List.append_nil]
  · -- every survivor is at least as recent as every evicted row of the pair
    intro k hk d hd hdnot
    have hk2 : k ∈ (sortByNewest ((old ++ [newB]).filter (pairB g actor))).take 5 :=
      hperm.mem_iff.1 hk
    have hd_sorted : d ∈ sortByNewest ((old ++ [newB]).filter (pairB g actor)) :=
      (sortByNewest_perm _).mem_iff.2 hd
    have hd_split : d ∈ (sortByNewest ((old ++ [newB]).filter (pairB g actor))).take 5 ++
        (sortByNewest ((old ++ [newB]).filter (pairB g actor))).drop 5 := by
      rw [List.take_append_drop]; exact hd_sorted
    rcases List.mem_append.1 hd_split with hdt | hdd
    · exfalso
      apply hdnot
      have hdb1 : d ∈ old ++ [newB] := (List.mem_filter.1 hd).1
      have hK : (retentionKeepIds (old ++ [newB]) g actor).contains d.id = true := by
        unfold retentionKeepIds
        simpa using List.mem_map_of_mem (fun b => b.id) hdt
      unfold retentionResult
      refine List.mem_filter.2 ⟨hdb1, ?_⟩
      rw [hK]
      simp
    · exact (sortByNewest_sorted _).rel_of_mem_take_of_mem_drop hk2 hdd
/-! ### Claim C1 -/

/-- Post-state of a successful capture, as claimed by the retention policy:
the acting pair holds `min 5 (n+1)` rows (hence at most five), every other
pair's rows are untouched, every surviving row of the pair is at least as
recent as every evicted row (so the evicted ones are exactly the oldest),
and a global five-per-pair bound is preserved. -/
def RetentionAfter (db db2 : DB) (g actor : Nat) (inserted : PersonalBackup) : Prop :=
  (db2.backups.filter (pairB g actor)).length
      = min 5 ((db.backups.filter (pairB g actor)).length + 1) ∧
  (db2.backups.filter (pairB g actor)).length ≤ 5 ∧
  (∀ g2 u2, ¬(g2 = g ∧ u2 = actor) →
    db2.backups.filter (pairB g2 u2) = db.backups.filter (pairB g2 u2)) ∧
  (∀ k ∈ db2.backups.filter (pairB g actor),
    ∀ d ∈ (db.backups ++ [inserted]).filter (pairB g actor),
      d ∉ db2.backups → geKey k d) ∧
  ((∀ g2 u2, (db.backups.filter (pairB g2 u2)).length ≤ 5) →
    ∀ g2 u2, (db2.backups.filter (pairB g2 u2)).length ≤ 5)

/-- C1: after any successful `db_backup_current_article` (the capture run on
every successful edit, delete, and category delete), the acting
`(guild_id, actor_id)` pair retains at most five personal backups, the
survivors are exactly the most recent rows of that pair (every survivor is
at least as recent as every evicted row, and the count is
`min 5 (previous + 1)`, so a sixth insertion evicts exactly the oldest), the
retention is independent of which article each backup concerns, and every
other pair's rows are untouched. -/
theorem claim_C1_retention (db : DB) (aid : Nat) (op : String) (actor now : Nat)
    (a : Article) (cname : String) (hWF : WF db)
    (hj : joinedArticle db aid = some (a, cname)) :
    RetentionAfter db (db_backup_current_article db aid op actor now)
      a.guild_id actor (mkBackupRow db a cname op actor now) := by
  obtain ⟨hnd1, hlt, _⟩ := hWF
  have heq := capture_backups_eq db aid op actor now a cname hj
  have hfresh : ∀ c ∈ db.backups, c.id ≠ (mkBackupRow db a cname op actor now).id := by
    intro c hc
    have := hlt c hc
    simp only [mkBackupRow]
    omega
  have hP : pairB a.guild_id actor (mkBackupRow db a cname op actor now) = true := by
    simp [pairB, mkBackupRow]
  obtain ⟨hperm, hlen, hother, hevict⟩ :=
    retention_core db.backups (mkBackupRow db a cname op actor now)
      a.guild_id actor hnd1 hfresh hP
  unfold RetentionAfter
  rw [heq]
  refine ⟨hlen, ?_, hother, hevict, ?_⟩
  · rw [hlen]
    exact Nat.min_le_left _ _
  · intro hb g2 u2
    by_cases hcase : g2 = a.guild_id ∧ u2 = actor
    · obtain ⟨rfl, rfl⟩ := hcase
      rw [hlen]
      exact Nat.min_le_left _ _
    · rw [hother g2 u2 hcase]
      exact hb g2 u2

/-- A tiny concrete store used to witness the claims: one guild (10), one
category, one article, written by user 7. -/
def wdb1 : DB :=
  ⟨[⟨1, 10, "wcat", none⟩], [⟨1, 10, 1, "wt", "wc", some 7, some "wu", 50, 50⟩],
    [], [], [], none, 2, 2, 1, 1⟩

theorem claim_C1_retention_witness :
    RetentionAfter wdb1 (db_backup_current_article wdb1 1 "edit" 7 100) 10 7
      (mkBackupRow wdb1 ⟨1, 10, 1, "wt", "wc", some 7, some "wu", 50, 50⟩ "wcat" "edit" 7 100) :=
  claim_C1_retention wdb1 1 "edit" 7 100 ⟨1, 10, 1, "wt", "wc", some 7, some "wu", 50, 50⟩
    "wcat" (by decide) (by decide)

/-! ### Claim C2 -/

/-- Under a monotone clock, the freshly captured row survives its own
retention step: it is the strictly most recent row of its pair. -/
theorem capture_inserts (db : DB) (aid : Nat) (op : String) (actor now : Nat)
    (a : Article) (cname : String)
    (hj : joinedArticle db aid = some (a, cname))
    (hnd1 : (db.backups.map (fun b => b.id)).Nodup)
    (hlt : ∀ c ∈ db.backups, c.id < db.next_backup_id)
    (hclock : ∀ c ∈ db.backups, c.backed_at ≤ now) :
    mkBackupRow db a cname op actor now
      ∈ (db_backup_current_article db aid op actor now).backups := by
  rw [capture_backups_eq db aid op actor now a cname hj]
  have hP : pairB a.guild_id actor (mkBackupRow db a cname op actor now) = true := by
    simp [pairB, mkBackupRow]
  have hmem1 : mkBackupRow db a cname op actor now
      ∈ db.backups ++ [mkBackupRow db a cname op actor now] := by
    simp
  have hnd_b1 : (((db.backups ++ [mkBackupRow db a cname op actor now]).map
      (fun b => b.id)).Nodup) := by
    rw [List.map_append, List.nodup_append]
    refine ⟨hnd1, by simp, ?_⟩
    intro x hx hy
    simp only [List.map_cons, List.map_nil, List.mem_singleton] at hy
    obtain ⟨c, hc, hcid⟩ := List.mem_map.1 hx
    have h1 := hlt c hc
    have h2 : x = (mkBackupRow db a cname op actor now).id := hy
    simp only [mkBackupRow] at h2
    omega
  have hnd_pair : ((((db.backups ++ [mkBackupRow db a cname op actor now]).filter
      (pairB a.guild_id actor)).map (fun b => b.id)).Nodup) :=
    hnd_b1.sublist ((List.filter_sublist _).map _)
  have hmem_pair : mkBackupRow db a cname op actor now
      ∈ (db.backups ++ [mkBackupRow db a cname op actor now]).filter
          (pairB a.guild_id actor) :=
    List.mem_filter.2 ⟨hmem1, hP⟩
  have hmax : ∀ c ∈ (db.backups ++ [mkBackupRow db a cname op actor now]).filter
      (pairB a.guild_id actor),
      c.id ≠ (mkBackupRow db a cname op actor now).id →
      c.backed_at < (mkBackupRow db a cname op actor now).backed_at ∨
        (c.backed_at = (mkBackupRow db a cname op actor now).backed_at ∧
          c.id < (mkBackupRow db a cname op actor now).id) := by
    intro c hc hne
    have hc1 : c ∈ db.backups ++ [mkBackupRow db a cname op actor now] :=
      (List.mem_filter.1 hc).1
    rcases List.mem_append.1 hc1 with hold | hnew
    · have h1 := hclock c hold
      have h2 := hlt c hold
      simp only [mkBackupRow] at *
      omega
    · simp only [List.mem_singleton] at hnew
      exact absurd (congrArg (fun b => b.id) hnew) hne
  have htake : mkBackupRow db a cname op actor now
      ∈ (sortByNewest ((db.backups ++ [mkBackupRow db a cname op actor now]).filter
          (pairB a.guild_id actor))).take 5 :=
    strict_max_mem_take _ hnd_pair hmem_pair hmax (by omega)
  unfold retentionResult
  refine List.mem_filter.2 ⟨hmem1, ?_⟩
  have hK : (retentionKeepIds (db.backups ++ [mkBackupRow db a cname op actor now])
      a.guild_id actor).contains (mkBackupRow db a cname op actor now).id = true := by
    unfold retentionKeepIds
    simpa using List.mem_map_of_mem (fun b => b.id) htake
  rw [hK]
  simp

theorem bumpContributor_frame (db : DB) (aid uid : Nat) :
    (bumpContributor db aid uid).backups = db.backups ∧
    (bumpContributor db aid uid).articles = db.articles ∧
    (bumpContributor db aid uid).categories = db.categories ∧
    (bumpContributor db aid uid).snapshots = db.snapshots := by
  unfold bumpContributor
  cases db.contributors.find? (fun c => c.article_id == aid && c.user_id == uid) with
  | none => exact ⟨rfl, rfl, rfl, rfl⟩
  | some c => exact ⟨rfl, rfl, rfl, rfl⟩

/-- Locating the joined row backing `db_backup_current_article` from the
rows already fetched by the caller. -/
theorem joined_of_found (db : DB) (cat_row : Category) (art : Article)
    (hnda : (db.articles.map (fun x => x.id)).Nodup)
    (hndc : (db.categories.map (fun x => x.id)).Nodup)
    (hcmem : cat_row ∈ db.categories)
    (hamem : art ∈ db.articles)
    (hcatid : art.category_id = cat_row.id) :
    joinedArticle db art.id = some (art, cat_row.name) := by
  have hfa : db.articles.find? (fun x => x.id == art.id) = some art :=
    find?_key (fun x => x.id) hnda hamem
  have hfc : db.categories.find? (fun c => c.id == cat_row.id) = some cat_row :=
    find?_key (fun x => x.id) hndc hcmem
  unfold joinedArticle
  simp only [hfa, hcatid, hfc]

/-- Post-state claimed for a successful edit: some stored article matched the
guild and old title, a backup row of its pre-edit state (tagged
`edit`/actor/now) is in the final store, and the article row now carries the
new title and content. -/
def EditBackupSpec (db db2 : DB) (g : Nat) (cat ot nt nc : String)
    (u now : Nat) : Prop :=
  ∃ a ∈ db.articles, a.guild_id = g ∧ a.title = ot ∧
    (∃ b2 ∈ db2.backups, b2.article_id = some a.id ∧ b2.category_name = cat ∧
      b2.title = a.title ∧ b2.content = a.content ∧ b2.op_type = "edit" ∧
      b2.actor_id = u ∧ b2.backed_at = now) ∧
    (∃ a2 ∈ db2.articles, a2.id = a.id ∧ a2.title = nt ∧ a2.content = nc ∧
      a2.updated_at = now)

/-- Post-state claimed for a successful delete: a backup row of the deleted
article's last state (tagged `delete`/actor/now) is in the final store, and
the article row is gone. -/
def DeleteBackupSpec (db db2 : DB) (g : Nat) (cat t : String)
    (u now : Nat) : Prop :=
  ∃ a ∈ db.articles, a.guild_id = g ∧ a.title = t ∧
    (∃ b2 ∈ db2.backups, b2.category_name = cat ∧ b2.title = a.title ∧
      b2.content = a.content ∧ b2.op_type = "delete" ∧ b2.actor_id = u ∧
      b2.backed_at = now) ∧
    (∀ a2 ∈ db2.articles, a2.id ≠ a.id)

/-- C2: every successful edit and every successful delete first writes a
personal backup of the article's pre-mutation state — `category_name`,
`title` and `content` are the pre-image's — tagged `edit` resp. `delete`
with the mutating user as actor, inside the same atomic step as the
mutation (the mutated article row is visible in the same final state). -/
theorem claim_C2_backup_before_mutate :
    (∀ db g cat ot nt nc u now r db2, WF db → ClockOK db now →
      db_edit_article db g cat ot nt nc u now = (("ok", r), db2) →
      EditBackupSpec db db2 g cat ot nt nc u now) ∧
    (∀ db g cat t u now db2, WF db → ClockOK db now →
      db_delete_article db g cat t u now = ("ok", db2) →
      DeleteBackupSpec db db2 g cat t u now) := by
  constructor
  · intro db g cat ot nt nc u now r db2 hWF hclock h
    obtain ⟨hndb, hltb, hnda, hlta, hndc, hltc, hops, hact, hmono, hts⟩ := hWF
    unfold db_edit_article at h
    split at h
    · exact absurd (show "no_category" = "ok" from congrArg (fun p => p.1.1) h)
        (by decide)
    · rename_i cat_row hc
      split at h
      · exact absurd (show "no_article" = "ok" from congrArg (fun p => p.1.1) h)
          (by decide)
      · rename_i art ha
        simp only [] at h
        split at h
        · exact absurd (show "dup_title" = "ok" from congrArg (fun p => p.1.1) h)
            (by decide)
        · have hamem := List.mem_of_find?_eq_some ha
          have hcmem := List.mem_of_find?_eq_some hc
          have hap : art.guild_id = g ∧ art.category_id = cat_row.id ∧ art.title = ot := by
            have := List.find?_some ha
            simpa [and_assoc] using this
          have hcp : cat_row.guild_id = g ∧ cat_row.name = cat := by
            have := List.find?_some hc
            simpa using this
          have hj : joinedArticle db art.id = some (art, cat_row.name) :=
            joined_of_found db cat_row art hnda hndc hcmem hamem hap.2.1
          have hmem_new : mkBackupRow db art cat_row.name "edit" u now
              ∈ (db_backup_current_article db art.id "edit" u now).backups :=
            capture_inserts db art.id "edit" u now art cat_row.name hj hndb hltb hclock
          injection h with h1 h2
          subst h2
          refine ⟨art, hamem, hap.1, hap.2.2, ?_, ?_⟩
          · refine ⟨mkBackupRow db art cat_row.name "edit" u now, ?_,
              rfl, hcp.2, rfl, rfl, rfl, rfl, rfl⟩
            rw [(bumpContributor_frame _ _ _).1]
            exact hmem_new
          · refine ⟨{ art with title := nt, content := nc, updated_at := now }, ?_,
              rfl, rfl, rfl, rfl⟩
            rw [(bumpContributor_frame _ _ _).2.1]
            show _ ∈ (db_backup_current_article db art.id "edit" u now).articles.map _
            rw [(capture_frame db art.id "edit" u now).1]
            refine List.mem_map.2 ⟨art, hamem, ?_⟩
            simp
  · intro db g cat t u now db2 hWF hclock h
    obtain ⟨hndb, hltb, hnda, hlta, hndc, hltc, hops, hact, hmono, hts⟩ := hWF
    unfold db_delete_article at h
    split at h
    · exact absurd (show "no_category" = "ok" from congrArg (fun p => p.1) h)
        (by decide)
    · rename_i cat_row hc
      split at h
      · exact absurd (show "no_article" = "ok" from congrArg (fun p => p.1) h)
          (by decide)
      · rename_i art ha
        simp only [] at h
        have hamem := List.mem_of_find?_eq_some ha
        have hcmem := List.mem_of_find?_eq_some hc
        have hap : art.guild_id = g ∧ art.category_id = cat_row.id ∧ art.title = t := by
          have := List.find?_some ha
          simpa [and_assoc] using this
        have hcp : cat_row.guild_id = g ∧ cat_row.name = cat := by
          have := List.find?_some hc
          simpa using this
        have hj : joinedArticle db art.id = some (art, cat_row.name) :=
          joined_of_found db cat_row art hnda hndc hcmem hamem hap.2.1
        have hmem_new : mkBackupRow db art cat_row.name "delete" u now
            ∈ (db_backup_current_article db art.id "delete" u now).backups :=
          capture_inserts db art.id "delete" u now art cat_row.name hj hndb hltb hclock
        injection h with h1 h2
        subst h2
        refine ⟨art, hamem, hap.1, hap.2.2, ?_, ?_⟩
        · refine ⟨{ mkBackupRow db art cat_row.name "delete" u now with
            article_id := none }, ?_, hcp.2, rfl, rfl, rfl, rfl, rfl⟩
          show _ ∈ (removeArticles (db_backup_current_article db art.id "delete" u now)
            [art.id]).backups
          unfold removeArticles
          refine List.mem_map.2 ⟨mkBackupRow db art cat_row.name "delete" u now,
            hmem_new, ?_⟩
          simp [mkBackupRow]
        · intro a2 ha2
          show a2.id ≠ art.id
          have ha2f : a2 ∈ (db_backup_current_article db art.id "delete" u now).articles.filter
              (fun a => !([art.id].contains a.id)) := ha2
          have := (List.mem_filter.1 ha2f).2
          simpa using this

theorem claim_C2_backup_before_mutate_witness :
    EditBackupSpec wdb1 ((db_edit_article wdb1 10 "wcat" "wt" "nt" "nc" 7 100).2)
      10 "wcat" "wt" "nt" "nc" 7 100 ∧
    DeleteBackupSpec wdb1 ((db_delete_article wdb1 10 "wcat" "wt" 8 100).2)
      10 "wcat" "wt" 8 100 :=
  ⟨claim_C2_backup_before_mutate.1 wdb1 10 "wcat" "wt" "nt" "nc" 7 100 (some 1) _
      (by decide) (by decide) (by decide),
    claim_C2_backup_before_mutate.2 wdb1 10 "wcat" "wt" 8 100 _
      (by decide) (by decide) (by decide)⟩

/-! ### Claim C3 -/

/-- The claimed behaviour of `checkConflict` on a backup of a still-live
article: only the single most recent later backup on the same article
matters.  `l` being that most-recent row (dominant under `geKey`), the
result names `l`'s actor and mirrors `l`'s `op_type` exactly when `l` was
made by a different actor; with no later backup, or when the most recent
later backup is the owner's own, the result is `none` — even if some
earlier intervening backup was made by another actor. -/
def ConflictSpec (db : DB) (b : PersonalBackup) (aid : Nat) : Prop :=
  (db.backups.filter (fun x => x.article_id == some aid && b.backed_at < x.backed_at) = [] →
    db_check_backup_conflict db b.id = ("none", none)) ∧
  (∀ l ∈ db.backups.filter (fun x => x.article_id == some aid && b.backed_at < x.backed_at),
    (∀ c ∈ db.backups.filter (fun x => x.article_id == some aid && b.backed_at < x.backed_at),
      geKey l c) →
    (l.actor_id = b.actor_id → db_check_backup_conflict db b.id = ("none", none)) ∧
    (l.actor_id ≠ b.actor_id →
      db_check_backup_conflict db b.id =
        ((if l.op_type = "edit" then "edited_by_other" else "deleted_by_other"),
          some l.actor_id)))

/-- C3: `db_check_backup_conflict` on a backup with a live article reference
inspects only the most recent later backup of that article. -/
theorem claim_C3_conflict (db : DB) (b : PersonalBackup) (aid : Nat)
    (hWF : WF db) (hb : b ∈ db.backups) (hart : b.article_id = some aid) :
    ConflictSpec db b aid := by
  obtain ⟨hndb, hltb, hnda, hlta, hndc, hltc, hops, hact, hmono, hts⟩ := hWF
  have hfind : db.backups.find? (fun x => x.id == b.id) = some b :=
    find?_key (fun x => x.id) hndb hb
  have hred : db_check_backup_conflict db b.id = conflictForLive db b aid := by
    unfold db_check_backup_conflict
    simp only [hfind, hart]
  constructor
  · intro hempty
    rw [hred]
    unfold conflictForLive
    rw [hempty]
    rfl
  · intro l hl hmaxl
    have hlb : l ∈ db.backups := (List.mem_filter.1 hl).1
    have hperm := sortByNewest_perm (db.backups.filter
      (fun x => x.article_id == some aid && b.backed_at < x.backed_at))
    have hsne : sortByNewest (db.backups.filter
        (fun x => x.article_id == some aid && b.backed_at < x.backed_at)) ≠ [] := by
      intro h0
      have hp2 := hperm
      rw [h0] at hp2
      exact (List.ne_nil_of_mem hl) hp2.symm.eq_nil
    have hnd_lat : ((db.backups.filter (fun x =>
        x.article_id == some aid && b.backed_at < x.backed_at)).map
        (fun x => x.id)).Nodup :=
      hndb.sublist ((List.filter_sublist _).map _)
    cases hsort : sortByNewest (db.backups.filter
        (fun x => x.article_id == some aid && b.backed_at < x.backed_at)) with
    | nil => exact absurd hsort hsne
    | cons h0 tl =>
      have hhd : (sortByNewest (db.backups.filter
          (fun x => x.article_id == some aid && b.backed_at < x.backed_at))).head?
          = some h0 := by
        rw [hsort]
        rfl
      obtain ⟨hh0mem, hh0dom⟩ := head?_max (sortByNewest_sorted _) hhd
      have hl_sorted : l ∈ sortByNewest (db.backups.filter
          (fun x => x.article_id == some aid && b.backed_at < x.backed_at)) :=
        hperm.mem_iff.2 hl
      have hh0_lat : h0 ∈ db.backups.filter
          (fun x => x.article_id == some aid && b.backed_at < x.backed_at) :=
        hperm.mem_iff.1 hh0mem
      have hids : l.id = h0.id :=
        geKey_antisymm_ids (hmaxl h0 hh0_lat) (hh0dom l hl_sorted)
      have hlh0 : l = h0 :=
        List.inj_on_of_nodup_map hnd_lat hl hh0_lat hids
      subst hlh0
      constructor
      · intro hsame
        rw [hred]
        unfold conflictForLive
        rw [hhd]
        simp only []
        rw [if_neg]
        intro hcond
        exact hcond.2 hsame
      · intro hdiff
        rw [hred]
        unfold conflictForLive
        rw [hhd]
        simp only []
        rw [if_pos ⟨hact l hlb, hdiff⟩]
        rcases hops l hlb with hop | hop
        · simp [hop]
        · simp [hop]

/-- Concrete store for the conflict witness: article 1 was edited by user 7
(backup 1) and later edited again by user 8 (backup 2). -/
def wdb3 : DB :=
  ⟨[⟨1, 10, "wcat", none⟩], [⟨1, 10, 1, "wt", "wc", some 7, some "wu", 50, 50⟩], [],
    [⟨1, 10, some 1, "wcat", "wt", "v1", some 7, some "wu", some 50, some 50, "edit", 7, 100⟩,
     ⟨2, 10, some 1, "wcat", "wt", "v2", some 7, some "wu", some 50, some 60, "edit", 8, 200⟩],
    [], none, 2, 2, 3, 1⟩

theorem claim_C3_conflict_witness :
    ConflictSpec wdb3
      ⟨1, 10, some 1, "wcat", "wt", "v1", some 7, some "wu", some 50, some 50, "edit", 7, 100⟩
      1 :=
  claim_C3_conflict wdb3
    ⟨1, 10, some 1, "wcat", "wt", "v1", some 7, some "wu", some 50, some 50, "edit", 7, 100⟩
    1 (by decide) (by decide) (by decide)

/-! ### Claim C4 -/

theorem insertSnapshots_frame (now : Nat) :
    ∀ (l : List Article) (db : DB),
      (insertSnapshots now db l).backups = db.backups ∧
      (insertSnapshots now db l).articles = db.articles ∧
      (insertSnapshots now db l).categories = db.categories ∧
      (insertSnapshots now db l).contributors = db.contributors ∧
      (insertSnapshots now db l).last_cleanup_at = db.last_cleanup_at := by
  intro l
  induction l with
  | nil => intro db; exact ⟨rfl, rfl, rfl, rfl, rfl⟩
  | cons a rest ih =>
    intro db
    unfold insertSnapshots
    cases db.categories.find? (fun c => c.id == a.category_id) with
    | none => exact ih db
    | some c => exact ih _

/-- The claimed outcome of one maintenance compaction: only backups of live
articles survive, each non-empty `(article_id, actor_id)` group is reduced
to exactly one row — the group's most recent one (max insertion id, hence
max `backed_at` under the monotone clock) — and the cleanup time is
recorded. -/
def CompactSpec (db db2 : DB) (now : Nat) : Prop :=
  (∀ x ∈ db2.backups, x ∈ db.backups ∧ x.article_id.isSome = true) ∧
  (∀ b ∈ db.backups, b.article_id.isSome = true →
    ∃ k ∈ db2.backups, k.article_id = b.article_id ∧ k.actor_id = b.actor_id ∧
      (∀ c ∈ db.backups, c.article_id = b.article_id → c.actor_id = b.actor_id →
        c.id ≤ k.id ∧ c.backed_at ≤ k.backed_at) ∧
      (∀ k2 ∈ db2.backups, k2.article_id = b.article_id → k2.actor_id = b.actor_id →
        k2 = k)) ∧
  db2.last_cleanup_at = some now

/-- C4: after a completed maintenance run every orphaned personal backup is
gone, and for every `(article_id, actor_id)` pair that had backups exactly
one row — the most recent — remains. -/
theorem claim_C4_compaction (db : DB) (now : Nat) (hWF : WF db) :
    CompactSpec db (compact_backups_once db now) now := by
  obtain ⟨hndb, hltb, hnda, hlta, hndc, hltc, hops, hact, hmono, hts⟩ := hWF
  have h1 : (insertSnapshots now db db.articles).backups = db.backups :=
    (insertSnapshots_frame now db.articles db).1
  have hbeq : (compact_backups_once db now).backups
      = db.backups.filter (fun b => isGroupLatest db.backups b) := by
    show ((insertSnapshots now db db.articles).backups.filter
        (fun b => isGroupLatest (insertSnapshots now db db.articles).backups b))
      = db.backups.filter (fun b => isGroupLatest db.backups b)
    rw [h1]
  refine ⟨?_, ?_, rfl⟩
  · intro x hx
    rw [hbeq] at hx
    obtain ⟨hxm, hxp⟩ := List.mem_filter.1 hx
    refine ⟨hxm, ?_⟩
    simp only [isGroupLatest, Bool.and_eq_true] at hxp
    exact hxp.1
  · intro b hbm hbs
    have hgrp : b ∈ db.backups.filter (fun c =>
        c.article_id == b.article_id && c.actor_id == b.actor_id) :=
      List.mem_filter.2 ⟨hbm, by simp⟩
    obtain ⟨m, hm, hmax⟩ :=
      exists_max_id _ (List.ne_nil_of_mem hgrp)
    obtain ⟨hmm, hmp⟩ := List.mem_filter.1 hm
    have hmkeys : m.article_id = b.article_id ∧ m.actor_id = b.actor_id := by
      simpa using hmp
    have hkeep : isGroupLatest db.backups m = true := by
      unfold isGroupLatest
      rw [Bool.and_eq_true]
      refine ⟨?_, ?_⟩
      · rw [hmkeys.1]
        exact hbs
      · refine List.all_eq_true.2 ?_
        intro c hc
        by_cases hck : (c.article_id == m.article_id && c.actor_id == m.actor_id) = true
        · have hckeys : c.article_id = m.article_id ∧ c.actor_id = m.actor_id := by
            simpa using hck
          have hcg : c ∈ db.backups.filter (fun x =>
              x.article_id == b.article_id && x.actor_id == b.actor_id) := by
            refine List.mem_filter.2 ⟨hc, ?_⟩
            simp [hckeys.1, hckeys.2, hmkeys.1, hmkeys.2]
          have := hmax c hcg
          simp [hck, this]
        · simp [hck]
    have hmfin : m ∈ (compact_backups_once db now).backups := by
      rw [hbeq]
      exact List.mem_filter.2 ⟨hmm, hkeep⟩
    refine ⟨m, hmfin, hmkeys.1, hmkeys.2, ?_, ?_⟩
    · intro c hc hc1 hc2
      have hcg : c ∈ db.backups.filter (fun x =>
          x.article_id == b.article_id && x.actor_id == b.actor_id) := by
        refine List.mem_filter.2 ⟨hc, ?_⟩
        simp [hc1, hc2]
      have hid := hmax c hcg
      exact ⟨hid, hmono c hc m hmm hid⟩
    · intro k2 hk2 hk21 hk22
      rw [hbeq] at hk2
      obtain ⟨hk2m, hk2p⟩ := List.mem_filter.1 hk2
      have hk2p2 : isGroupLatest db.backups k2 = true := hk2p
      unfold isGroupLatest at hk2p2
      rw [Bool.and_eq_true] at hk2p2
      have hk2all := hk2p2.2
      have hmle : m.id ≤ k2.id := by
        have := List.all_eq_true.1 hk2all m hmm
        have hkeys : (m.article_id == k2.article_id && m.actor_id == k2.actor_id) = true := by
          simp [hmkeys.1, hmkeys.2, hk21, hk22]
        rw [hkeys] at this
        simpa using this
      have hk2g : k2 ∈ db.backups.filter (fun x =>
          x.article_id == b.article_id && x.actor_id == b.actor_id) := by
        refine List.mem_filter.2 ⟨hk2m, ?_⟩
        simp [hk21, hk22]
      have hle2 : k2.id ≤ m.id := hmax k2 hk2g
      exact List.inj_on_of_nodup_map hndb hk2m hmm (by omega)

/-- Concrete store for the compaction witness: three backups on article 1,
two of them by actor 7, one by actor 8. -/
def wdb4 : DB :=
  ⟨[⟨1, 10, "wcat", none⟩], [⟨1, 10, 1, "wt", "wc", some 7, some "wu", 50, 50⟩], [],
    [⟨1, 10, some 1, "wcat", "wt", "v1", some 7, some "wu", some 50, some 50, "edit", 7, 100⟩,
     ⟨2, 10, some 1, "wcat", "wt", "v2", some 7, some "wu", some 50, some 60, "edit", 8, 200⟩,
     ⟨3, 10, some 1, "wcat", "wt", "v3", some 7, some "wu", some 50, some 70, "edit", 7, 300⟩],
    [], none, 2, 2, 4, 1⟩

theorem claim_C4_compaction_witness :
    CompactSpec wdb4 (compact_backups_once wdb4 400) 400 :=
  claim_C4_compaction wdb4 400 (by decide)

/-! ### Claim C5 -/

theorem overwriteArticle_id_map (db : DB) (cid : Nat) (b : PersonalBackup) (now : Nat) :
    (overwriteArticle db cid b now).articles.map (fun a => a.id)
      = db.articles.map (fun a => a.id) := by
  unfold overwriteArticle
  rw [List.map_map]
  apply List.map_congr_left
  intro x hx
  by_cases hxe : b.article_id = some x.id <;> simp [hxe]

/-- The claimed outcome of a confirmed restore of backup `b` whose article
`aid` still exists: success, no article row added or removed (the id set is
unchanged), the article `aid` overwritten in place with `b`'s category,
title, content, creator fields and timestamps, the consumed backup row
deleted while all other backups survive, and a second restore of `b`
failing with `not_found`. -/
def RestoreExistingSpec (db : DB) (g : Nat) (b : PersonalBackup)
    (aid now : Nat) : Prop :=
  ∃ db2, restoreBackup db g b.id now = ("ok", db2) ∧
    db2.articles.map (fun a => a.id) = db.articles.map (fun a => a.id) ∧
    (∃ a2 ∈ db2.articles, a2.id = aid ∧ a2.title = b.title ∧ a2.content = b.content ∧
      a2.created_by_id = b.created_by_id ∧ a2.created_by_name = b.created_by_name ∧
      some a2.created_at = b.created_at ∧ some a2.updated_at = b.updated_at ∧
      a2.category_id = (match db.categories.find? (fun c =>
          c.guild_id == g && c.name == b.category_name) with
        | some c => c.id
        | none => db.next_category_id)) ∧
    (∀ x ∈ db2.backups, x.id ≠ b.id) ∧
    (∀ x ∈ db.backups, x.id ≠ b.id → x ∈ db2.backups) ∧
    (restoreBackup db2 g b.id now).1 = "not_found"

/-- C5: restoring a backup of a still-existing article overwrites that
article in place (same numeric id, no new row) with the backup's fields and
consumes the backup row, so it cannot be restored twice. -/
theorem claim_C5_restore_existing (db : DB) (g : Nat) (b : PersonalBackup)
    (aid now : Nat) (a : Article) (hWF : WF db) (hb : b ∈ db.backups)
    (hart : b.article_id = some aid) (ha : a ∈ db.articles) (haid : a.id = aid) :
    RestoreExistingSpec db g b aid now := by
  obtain ⟨hndb, hltb, hnda, hlta, hndc, hltc, hops, hact, hmono, hts⟩ := hWF
  subst haid
  have hfind : db.backups.find? (fun x => x.id == b.id) = some b :=
    find?_key (fun x => x.id) hndb hb
  have hfa : db.articles.find? (fun x => x.id == a.id) = some a :=
    find?_key (fun x => x.id) hnda ha
  obtain ⟨ca, hca⟩ := Option.isSome_iff_exists.1 (hts b hb).1
  obtain ⟨ua, hua⟩ := Option.isSome_iff_exists.1 (hts b hb).2
  have hfilter_ne : ∀ x ∈ db.backups.filter (fun x => !(x.id == b.id)), x.id ≠ b.id := by
    intro x hx
    have := (List.mem_filter.1 hx).2
    simpa using this
  have hfilter_mem : ∀ x ∈ db.backups, x.id ≠ b.id →
      x ∈ db.backups.filter (fun x => !(x.id == b.id)) := by
    intro x hx hne
    refine List.mem_filter.2 ⟨hx, ?_⟩
    simpa using hne
  have hfind2 : (db.backups.filter (fun x => !(x.id == b.id))).find?
      (fun x => x.id == b.id) = none := by
    rw [List.find?_eq_none]
    intro x hx
    simpa using hfilter_ne x hx
  cases hc : db.categories.find? (fun c => c.guild_id == g && c.name == b.category_name) with
  | some c0 =>
    have hres : resolveCategory db g b.category_name = (c0.id, db) := by
      unfold resolveCategory
      rw [hc]
    have hex : restoreTargetExists db b.article_id = true := by
      simp [restoreTargetExists, hart, hfa]
    have heq : restoreBackup db g b.id now =
        ("ok", { overwriteArticle db c0.id b now with
          backups := db.backups.filter (fun x => !(x.id == b.id)) }) := by
      unfold restoreBackup
      simp only [hfind, hres, hex, if_true]
      rfl
    have hfind3 : ({ overwriteArticle db c0.id b now with
        backups := db.backups.filter (fun x => !(x.id == b.id)) } : DB).backups.find?
        (fun x => x.id == b.id) = none := hfind2
    refine ⟨_, heq, ?_, ?_, hfilter_ne, hfilter_mem, ?_⟩
    · exact overwriteArticle_id_map db c0.id b now
    · refine ⟨{ a with
        category_id := c0.id, title := b.title, content := b.content,
        created_by_id := b.created_by_id, created_by_name := b.created_by_name,
        created_at := b.created_at.getD now, updated_at := b.updated_at.getD now },
        ?_, rfl, rfl, rfl, rfl, rfl, ?_, ?_, ?_⟩
      · show _ ∈ (overwriteArticle db c0.id b now).articles
        unfold overwriteArticle
        refine List.mem_map.2 ⟨a, ha, ?_⟩
        simp [hart]
      · simp [hca]
      · simp [hua]
      · rw [hc]
    · unfold restoreBackup
      rw [hfind3]
  | none =>
    have hres : resolveCategory db g b.category_name =
        (db.next_category_id,
          { db with
            categories := db.categories ++
              [{ id := db.next_category_id, guild_id := g, name := b.category_name,
                 description := none }]
            next_category_id := db.next_category_id + 1 }) := by
      unfold resolveCategory
      rw [hc]
    have hex : restoreTargetExists
        ({ db with
          categories := db.categories ++
            [{ id := db.next_category_id, guild_id := g, name := b.category_name,
               description := none }]
          next_category_id := db.next_category_id + 1 } : DB) b.article_id = true := by
      simp only [restoreTargetExists, hart]
      rw [show ({ db with
          categories := db.categories ++
            [{ id := db.next_category_id, guild_id := g, name := b.category_name,
               description := none }]
          next_category_id := db.next_category_id + 1 } : DB).articles
        = db.articles from rfl]
      rw [hfa]
      rfl
    have heq : restoreBackup db g b.id now =
        ("ok", { overwriteArticle
          ({ db with
            categories := db.categories ++
              [{ id := db.next_category_id, guild_id := g, name := b.category_name,
                 description := none }]
            next_category_id := db.next_category_id + 1 } : DB)
          db.next_category_id b now with
          backups := db.backups.filter (fun x => !(x.id == b.id)) }) := by
      unfold restoreBackup
      simp only [hfind, hres, hex, if_true]
      rfl
    have hfind3 : ({ overwriteArticle
        ({ db with
          categories := db.categories ++
            [{ id := db.next_category_id, guild_id := g, name := b.category_name,
               description := none }]
          next_category_id := db.next_category_id + 1 } : DB)
        db.next_category_id b now with
        backups := db.backups.filter (fun x => !(x.id == b.id)) } : DB).backups.find?
        (fun x => x.id == b.id) = none := hfind2
    refine ⟨_, heq, ?_, ?_, hfilter_ne, hfilter_mem, ?_⟩
    · exact overwriteArticle_id_map _ db.next_category_id b now
    · refine ⟨{ a with
        category_id := db.next_category_id, title := b.title, content := b.content,
        created_by_id := b.created_by_id, created_by_name := b.created_by_name,
        created_at := b.created_at.getD now, updated_at := b.updated_at.getD now },
        ?_, rfl, rfl, rfl, rfl, rfl, ?_, ?_, ?_⟩
      · show _ ∈ (overwriteArticle _ db.next_category_id b now).articles
        unfold overwriteArticle
        refine List.mem_map.2 ⟨a, ha, ?_⟩
        simp [hart]
      · simp [hca]
      · simp [hua]
      · rw [hc]
    · unfold restoreBackup
      rw [hfind3]

theorem claim_C5_restore_existing_witness :
    RestoreExistingSpec wdb3 10
      ⟨1, 10, some 1, "wcat", "wt", "v1", some 7, some "wu", some 50, some 50, "edit", 7, 100⟩
      1 500 :=
  claim_C5_restore_existing wdb3 10
    ⟨1, 10, some 1, "wcat", "wt", "v1", some 7, some "wu", some 50, some 50, "edit", 7, 100⟩
    1 500 ⟨1, 10, 1, "wt", "wc", some 7, some "wu", 50, 50⟩
    (by decide) (by decide) (by decide) (by decide) (by decide)

/-! ### Claim C6 -/

/-- The claimed outcome of a confirmed restore of backup `b` whose article is
gone (null or dangling reference): success, a single new article row carrying
`b`'s fields with null timestamps defaulted to `now`, and the target
category reused when present or created bare when missing. -/
def RestoreMissingSpec (db : DB) (g : Nat) (b : PersonalBackup) (now : Nat) : Prop :=
  ∃ db2 cid, restoreBackup db g b.id now = ("ok", db2) ∧
    db2.articles = db.articles ++
      [{ id := db.next_article_id, guild_id := g, category_id := cid,
         title := b.title, content := b.content, created_by_id := b.created_by_id,
         created_by_name := b.created_by_name, created_at := b.created_at.getD now,
         updated_at := b.updated_at.getD now }] ∧
    (db.categories.find? (fun c => c.guild_id == g && c.name == b.category_name) = none →
      cid = db.next_category_id ∧
      db2.categories = db.categories ++
        [{ id := db.next_category_id, guild_id := g, name := b.category_name,
           description := none }]) ∧
    (∀ c0, db.categories.find? (fun c =>
        c.guild_id == g && c.name == b.category_name) = some c0 →
      cid = c0.id ∧ db2.categories = db.categories)

/-- C6: restoring a backup whose article no longer exists inserts a new
article row from the backup's fields (null timestamps defaulting to now),
recreating the category bare if it was deleted. -/
theorem claim_C6_restore_missing (db : DB) (g : Nat) (b : PersonalBackup)
    (now : Nat) (hWF : WF db) (hb : b ∈ db.backups)
    (hmiss : ∀ aid, b.article_id = some aid → ∀ a ∈ db.articles, a.id ≠ aid) :
    RestoreMissingSpec db g b now := by
  obtain ⟨hndb, hltb, hnda, hlta, hndc, hltc, hops, hact, hmono, hts⟩ := hWF
  have hfind : db.backups.find? (fun x => x.id == b.id) = some b :=
    find?_key (fun x => x.id) hndb hb
  have hex0 : restoreTargetExists db b.article_id = false := by
    unfold restoreTargetExists
    cases hart0 : b.article_id with
    | none => rfl
    | some aid =>
      have hfn : db.articles.find? (fun x => x.id == aid) = none := by
        rw [List.find?_eq_none]
        intro x hx
        simpa using hmiss aid hart0 x hx
      show (db.articles.find? (fun a => a.id == aid)).isSome = false
      rw [hfn]
      rfl
  cases hc : db.categories.find? (fun c => c.guild_id == g && c.name == b.category_name) with
  | some c0 =>
    have hres : resolveCategory db g b.category_name = (c0.id, db) := by
      unfold resolveCategory
      rw [hc]
    have heq : restoreBackup db g b.id now =
        ("ok", { insertRestoredArticle db g c0.id b now with
          backups := db.backups.filter (fun x => !(x.id == b.id)) }) := by
      unfold restoreBackup
      simp only [hfind, hres, hex0, Bool.false_eq_true, if_false]
      rfl
    refine ⟨_, c0.id, heq, rfl, ?_, ?_⟩
    · intro h
      rw [hc] at h
      simp at h
    · intro c1 h
      rw [hc] at h
      simp only [Option.some.injEq] at h
      subst h
      exact ⟨rfl, rfl⟩
  | none =>
    have hres : resolveCategory db g b.category_name =
        (db.next_category_id,
          { db with
            categories := db.categories ++
              [{ id := db.next_category_id, guild_id := g, name := b.category_name,
                 description := none }]
            next_category_id := db.next_category_id + 1 }) := by
      unfold resolveCategory
      rw [hc]
    have hex1 : restoreTargetExists
        ({ db with
          categories := db.categories ++
            [{ id := db.next_category_id, guild_id := g, name := b.category_name,
               description := none }]
          next_category_id := db.next_category_id + 1 } : DB) b.article_id = false :=
      hex0
    have heq : restoreBackup db g b.id now =
        ("ok", { insertRestoredArticle
          ({ db with
            categories := db.categories ++
              [{ id := db.next_category_id, guild_id := g, name := b.category_name,
                 description := none }]
            next_category_id := db.next_category_id + 1 } : DB)
          g db.next_category_id b now with
          backups := db.backups.filter (fun x => !(x.id == b.id)) }) := by
      unfold restoreBackup
      simp only [hfind, hres, hex1, Bool.false_eq_true, if_false]
      rfl
    refine ⟨_, db.next_category_id, heq, rfl, ?_, ?_⟩
    · intro _
      exact ⟨rfl, rfl⟩
    · intro c1 h
      rw [hc] at h
      simp at h

/-- Concrete store for the orphan-restore witness: a single orphaned
`delete` backup, categories and articles both empty. -/
def wdb5 : DB :=
  ⟨[], [], [],
    [⟨1, 10, none, "wcat", "wt", "v1", some 7, some "wu", some 50, some 50, "delete", 7, 100⟩],
    [], none, 1, 1, 2, 1⟩

theorem claim_C6_restore_missing_witness :
    RestoreMissingSpec wdb5 10
      ⟨1, 10, none, "wcat", "wt", "v1", some 7, some "wu", some 50, some 50, "delete", 7, 100⟩
      500 :=
  claim_C6_restore_missing wdb5 10
    ⟨1, 10, none, "wcat", "wt", "v1", some 7, some "wu", some 50, some 50, "delete", 7, 100⟩
    500 (by decide) (by decide) (by decide)

/-! ### Claim C7 -/

theorem take_sort_facts (l : List PersonalBackup) (n : Nat) :
    ((sortByNewest l).take n).length ≤ n ∧
    List.Sorted geKey ((sortByNewest l).take n) ∧
    (∀ x ∈ (sortByNewest l).take n, x ∈ l) ∧
    (∀ x ∈ l, x ∉ (sortByNewest l).take n →
      ((sortByNewest l).take n).length = n ∧
      ∀ y ∈ (sortByNewest l).take n, geKey y x) := by
  refine ⟨?_, ?_, ?_, ?_⟩
  · rw [List.length_take]
    exact Nat.min_le_left _ _
  · exact List.Pairwise.sublist (List.take_sublist _ _) (sortByNewest_sorted l)
  · intro x hx
    exact (sortByNewest_perm l).mem_iff.1 (List.mem_of_mem_take hx)
  · intro x hxl hxnot
    have hx2 : x ∈ sortByNewest l := (sortByNewest_perm l).mem_iff.2 hxl
    have hsplit : x ∈ (sortByNewest l).take n ++ (sortByNewest l).drop n := by
      rw [List.take_append_drop]
      exact hx2
    rcases List.mem_append.1 hsplit with h | h
    · exact absurd h hxnot
    · have hlen : n < (sortByNewest l).length := by
        have hne : (sortByNewest l).drop n ≠ [] := List.ne_nil_of_mem h
        rw [ne_eq, List.drop_eq_nil_iff] at hne
        omega
      constructor
      · rw [List.length_take]
        omega
      · intro y hy
        exact (sortByNewest_sorted l).rel_of_mem_take_of_mem_drop hy h

/-- The claimed behaviour of `listRecentBackups`: at most `lim` rows, most
recent first, all belonging to the requested guild and user; with a recorded
cleanup time only strictly newer backups appear; with no cleanup recorded
every backup of the pair is considered (one is omitted only when `lim` rows
at least as recent fill the result). -/
def ListBackupsSpec (db : DB) (g u lim : Nat) : Prop :=
  (db_get_backups_for_user db g u lim).length ≤ lim ∧
  List.Sorted (fun x y : PersonalBackup => y.backed_at ≤ x.backed_at)
    (db_get_backups_for_user db g u lim) ∧
  (∀ x ∈ db_get_backups_for_user db g u lim,
    x ∈ db.backups ∧ x.guild_id = g ∧ x.actor_id = u) ∧
  (∀ t, db.last_cleanup_at = some t →
    ∀ x ∈ db_get_backups_for_user db g u lim, t < x.backed_at) ∧
  (db.last_cleanup_at = none →
    ∀ x ∈ db.backups, x.guild_id = g → x.actor_id = u →
      x ∉ db_get_backups_for_user db g u lim →
      (db_get_backups_for_user db g u lim).length = lim ∧
      ∀ y ∈ db_get_backups_for_user db g u lim, geKey y x)

/-- C7: `db_get_backups_for_user` returns at most `lim` backups of the
requested pair, newest first, gated strictly after `last_cleanup_at` once a
maintenance cycle has recorded one, and over all of the pair's backups
otherwise. -/
theorem claim_C7_list_backups (db : DB) (g u lim : Nat) :
    ListBackupsSpec db g u lim := by
  unfold ListBackupsSpec
  cases hm : db.last_cleanup_at with
  | none =>
    have hred : db_get_backups_for_user db g u lim
        = (sortByNewest (db.backups.filter (pairB g u))).take lim := by
      unfold db_get_backups_for_user
      rw [hm]
    rw [hred]
    obtain ⟨h1, h2, h3, h4⟩ := take_sort_facts (db.backups.filter (pairB g u)) lim
    refine ⟨h1, ?_, ?_, ?_, ?_⟩
    · exact h2.imp (fun hab => geKey_backed_le hab)
    · intro x hx
      have := h3 x hx
      obtain ⟨hxm, hxp⟩ := List.mem_filter.1 this
      have : x.guild_id = g ∧ x.actor_id = u := by
        simpa [pairB] using hxp
      exact ⟨hxm, this.1, this.2⟩
    · intro t ht
      cases ht
    · intro _ x hxb hg hu hnot
      exact h4 x (List.mem_filter.2 ⟨hxb, by simp [pairB, hg, hu]⟩) hnot
  | some t0 =>
    have hred : db_get_backups_for_user db g u lim
        = (sortByNewest (db.backups.filter
            (fun b => pairB g u b && t0 < b.backed_at))).take lim := by
      unfold db_get_backups_for_user
      rw [hm]
    rw [hred]
    obtain ⟨h1, h2, h3, h4⟩ := take_sort_facts
      (db.backups.filter (fun b => pairB g u b && t0 < b.backed_at)) lim
    refine ⟨h1, ?_, ?_, ?_, ?_⟩
    · exact h2.imp (fun hab => geKey_backed_le hab)
    · intro x hx
      have := h3 x hx
      obtain ⟨hxm, hxp⟩ := List.mem_filter.1 this
      have : (x.guild_id = g ∧ x.actor_id = u) ∧ t0 < x.backed_at := by
        simpa [pairB] using hxp
      exact ⟨hxm, this.1.1, this.1.2⟩
    · intro t ht x hx
      have hteq : t = t0 := by
        injection ht with ht2
        exact ht2.symm
      subst hteq
      have := h3 x hx
      obtain ⟨hxm, hxp⟩ := List.mem_filter.1 this
      have : (x.guild_id = g ∧ x.actor_id = u) ∧ t < x.backed_at := by
        simpa [pairB] using hxp
      exact this.2
    · intro h
      cases h

theorem claim_C7_list_backups_witness : ListBackupsSpec wdb3 10 7 5 :=
  claim_C7_list_backups wdb3 10 7 5

/-! ### Claims C8 and C9 -/

/-- Counterexample to C8 as frozen: article creation reports a missing
category by raising (`ValueError` in the source, `Except.error` here), not
as a discriminated result value. -/
theorem claim_C8_counterexample :
    db_upsert_article wdb5 10 "nocat" "t" "x" 7 "n" 0
      = Except.error "카테고리가 존재하지 않습니다." := rfl

/-- The amended propagation policy: every mutation operation other than
article creation's category lookup reports NotFound and duplicate
conditions as discriminated result values with the store unchanged;
creation reports a duplicate title as the `dup` result but raises on a
missing category. -/
def MutationErrorSpec : Prop :=
  (∀ db g n d c0,
    db.categories.find? (fun c => c.guild_id == g && c.name == n) = some c0 →
    db_add_category db g n d = ("dup", db)) ∧
  (∀ db g cat ot nt nc u now,
    db.categories.find? (fun c => c.guild_id == g && c.name == cat) = none →
    db_edit_article db g cat ot nt nc u now = (("no_category", none), db)) ∧
  (∀ db g cat ot nt nc u now c0,
    db.categories.find? (fun c => c.guild_id == g && c.name == cat) = some c0 →
    db.articles.find? (fun a =>
      a.guild_id == g && a.category_id == c0.id && a.title == ot) = none →
    db_edit_article db g cat ot nt nc u now = (("no_article", none), db)) ∧
  (∀ db g cat ot nt nc u now c0 art,
    db.categories.find? (fun c => c.guild_id == g && c.name == cat) = some c0 →
    db.articles.find? (fun a =>
      a.guild_id == g && a.category_id == c0.id && a.title == ot) = some art →
    editDupCheck db g c0.id ot nt = true →
    db_edit_article db g cat ot nt nc u now = (("dup_title", none), db)) ∧
  (∀ db g cat t u now,
    db.categories.find? (fun c => c.guild_id == g && c.name == cat) = none →
    db_delete_article db g cat t u now = ("no_category", db)) ∧
  (∀ db g cat t u now c0,
    db.categories.find? (fun c => c.guild_id == g && c.name == cat) = some c0 →
    db.articles.find? (fun a =>
      a.guild_id == g && a.category_id == c0.id && a.title == t) = none →
    db_delete_article db g cat t u now = ("no_article", db)) ∧
  (∀ db g n u now,
    db.categories.find? (fun c => c.guild_id == g && c.name == n) = none →
    db_delete_category db g n u now = (("no_category", 0), db)) ∧
  (∀ db g cn t c u un now c0,
    db.categories.find? (fun x => x.guild_id == g && x.name == cn) = some c0 →
    (db.articles.find? (fun a =>
      a.guild_id == g && a.category_id == c0.id && a.title == t)).isSome = true →
    db_upsert_article db g cn t c u un now = Except.ok (("dup", none), db)) ∧
  (∀ db g cn t c u un now,
    db.categories.find? (fun x => x.guild_id == g && x.name == cn) = none →
    db_upsert_article db g cn t c u un now
      = Except.error "카테고리가 존재하지 않습니다.")

/-- C8 (amended): the discriminated-result propagation policy holds for all
mutation operations except that creation raises on a missing category. -/
theorem claim_C8_amended : MutationErrorSpec := by
  refine ⟨?_, ?_, ?_, ?_, ?_, ?_, ?_, ?_, ?_⟩
  · intro db g n d c0 hc
    unfold db_add_category
    simp only [hc]
  · intro db g cat ot nt nc u now hc
    unfold db_edit_article
    simp only [hc]
  · intro db g cat ot nt nc u now c0 hc ha
    unfold db_edit_article
    simp only [hc, ha]
  · intro db g cat ot nt nc u now c0 art hc ha hdup
    unfold db_edit_article
    simp only [hc, ha]
    simp only [hdup, if_true]
  · intro db g cat t u now hc
    unfold db_delete_article
    simp only [hc]
  · intro db g cat t u now c0 hc ha
    unfold db_delete_article
    simp only [hc, ha]
  · intro db g n u now hc
    unfold db_delete_category
    simp only [hc]
  · intro db g cn t c u un now c0 hc hdup
    obtain ⟨a0, ha0⟩ := Option.isSome_iff_exists.1 hdup
    unfold db_upsert_article
    simp only [hc, ha0]
  · intro db g cn t c u un now hc
    unfold db_upsert_article
    simp only [hc]

/-- A store with two articles in one category, for the rename-collision
witness. -/
def wdb6 : DB :=
  ⟨[⟨1, 10, "wcat", none⟩],
    [⟨1, 10, 1, "wt", "wc", some 7, some "wu", 50, 50⟩,
     ⟨2, 10, 1, "wt2", "wc2", some 7, some "wu", 50, 50⟩],
    [], [], [], none, 2, 3, 1, 1⟩

theorem claim_C8_amended_witness :
    db_add_category wdb1 10 "wcat" none = ("dup", wdb1) ∧
    db_edit_article wdb1 10 "nope" "a" "b" "c" 7 0 = (("no_category", none), wdb1) ∧
    db_edit_article wdb1 10 "wcat" "zz" "b" "c" 7 0 = (("no_article", none), wdb1) ∧
    db_edit_article wdb6 10 "wcat" "wt" "wt2" "c" 7 0 = (("dup_title", none), wdb6) ∧
    db_delete_article wdb1 10 "nope" "t" 7 0 = ("no_category", wdb1) ∧
    db_delete_article wdb1 10 "wcat" "zz" 7 0 = ("no_article", wdb1) ∧
    db_delete_category wdb1 10 "nope" 7 0 = (("no_category", 0), wdb1) ∧
    db_upsert_article wdb1 10 "wcat" "wt" "x" 9 "n" 0 = Except.ok (("dup", none), wdb1) ∧
    db_upsert_article wdb1 10 "nope" "t" "x" 9 "n" 0
      = Except.error "카테고리가 존재하지 않습니다." :=
  ⟨claim_C8_amended.1 wdb1 10 "wcat" none ⟨1, 10, "wcat", none⟩ (by decide),
    claim_C8_amended.2.1 wdb1 10 "nope" "a" "b" "c" 7 0 (by decide),
    claim_C8_amended.2.2.1 wdb1 10 "wcat" "zz" "b" "c" 7 0 ⟨1, 10, "wcat", none⟩
      (by decide) (by decide),
    claim_C8_amended.2.2.2.1 wdb6 10 "wcat" "wt" "wt2" "c" 7 0 ⟨1, 10, "wcat", none⟩
      ⟨1, 10, 1, "wt", "wc", some 7, some "wu", 50, 50⟩ (by decide) (by decide) (by decide),
    claim_C8_amended.2.2.2.2.1 wdb1 10 "nope" "t" 7 0 (by decide),
    claim_C8_amended.2.2.2.2.2.1 wdb1 10 "wcat" "zz" 7 0 ⟨1, 10, "wcat", none⟩
      (by decide) (by decide),
    claim_C8_amended.2.2.2.2.2.2.1 wdb1 10 "nope" 7 0 (by decide),
    claim_C8_amended.2.2.2.2.2.2.2.1 wdb1 10 "wcat" "wt" "x" 9 "n" 0 ⟨1, 10, "wcat", none⟩
      (by decide) (by decide),
    claim_C8_amended.2.2.2.2.2.2.2.2 wdb1 10 "nope" "t" "x" 9 "n" 0 (by decide)⟩

/-- The claimed create behaviour: a duplicate `(guild, category, title)`
yields the discriminated `dup` result with the store returned untouched; a
successful create returns `created` with contribution count 1, appending
exactly one Article row and one Contributor row with count 1 and leaving
every other table as it was. -/
def CreateSpec : Prop :=
  (∀ db g cn t c u un now c0,
    db.categories.find? (fun x => x.guild_id == g && x.name == cn) = some c0 →
    (db.articles.find? (fun a =>
      a.guild_id == g && a.category_id == c0.id && a.title == t)).isSome = true →
    db_upsert_article db g cn t c u un now = Except.ok (("dup", none), db)) ∧
  (∀ db g cn t c u un now c0,
    db.categories.find? (fun x => x.guild_id == g && x.name == cn) = some c0 →
    db.articles.find? (fun a =>
      a.guild_id == g && a.category_id == c0.id && a.title == t) = none →
    db_upsert_article db g cn t c u un now = Except.ok (("created", some 1),
      { db with
        articles := db.articles ++
          [{ id := db.next_article_id, guild_id := g, category_id := c0.id,
             title := t, content := c, created_by_id := some u,
             created_by_name := some un, created_at := now, updated_at := now }]
        contributors := db.contributors ++
          [{ article_id := db.next_article_id, user_id := u, count := 1 }]
        next_article_id := db.next_article_id + 1 }))

/-- C9: creating an article with an already-taken `(category, title)` gives
`dup` and leaves the store completely unchanged; a successful create inserts
the article and a count-1 contributor row. -/
theorem claim_C9_create : CreateSpec := by
  constructor
  · intro db g cn t c u un now c0 hc hdup
    obtain ⟨a0, ha0⟩ := Option.isSome_iff_exists.1 hdup
    unfold db_upsert_article
    simp only [hc, ha0]
  · intro db g cn t c u un now c0 hc hnone
    unfold db_upsert_article
    simp only [hc, hnone]

theorem claim_C9_create_witness :
    db_upsert_article wdb1 10 "wcat" "wt" "x" 9 "n" 0 = Except.ok (("dup", none), wdb1) ∧
    db_upsert_article wdb1 10 "wcat" "new" "x" 9 "n" 77 = Except.ok (("created", some 1),
      { wdb1 with
        articles := wdb1.articles ++
          [{ id := wdb1.next_article_id, guild_id := 10, category_id := 1,
             title := "new", content := "x", created_by_id := some 9,
             created_by_name := some "n", created_at := 77, updated_at := 77 }]
        contributors := wdb1.contributors ++
          [{ article_id := wdb1.next_article_id, user_id := 9, count := 1 }]
        next_article_id := wdb1.next_article_id + 1 }) :=
  ⟨claim_C9_create.1 wdb1 10 "wcat" "wt" "x" 9 "n" 0 ⟨1, 10, "wcat", none⟩
      (by decide) (by decide),
    claim_C9_create.2 wdb1 10 "wcat" "new" "x" 9 "n" 77 ⟨1, 10, "wcat", none⟩
      (by decide) (by decide)⟩

/-! ### Claim C10 -/

theorem resolveCategory_frame (db : DB) (g : Nat) (n : String) :
    ((resolveCategory db g n).2).articles = db.articles ∧
    ((resolveCategory db g n).2).backups = db.backups ∧
    ((resolveCategory db g n).2).snapshots = db.snapshots ∧
    ((resolveCategory db g n).2).contributors = db.contributors ∧
    ((resolveCategory db g n).2).last_cleanup_at = db.last_cleanup_at ∧
    ((resolveCategory db g n).2).next_article_id = db.next_article_id ∧
    ((resolveCategory db g n).2).next_backup_id = db.next_backup_id ∧
    ((resolveCategory db g n).2).next_snapshot_id = db.next_snapshot_id := by
  unfold resolveCategory
  cases db.categories.find? (fun c => c.guild_id == g && c.name == n) with
  | none => exact ⟨rfl, rfl, rfl, rfl, rfl, rfl, rfl, rfl⟩
  | some c => exact ⟨rfl, rfl, rfl, rfl, rfl, rfl, rfl, rfl⟩

/-- C10: restoring a snapshot is non-consuming — a successful
`restoreSnapshot` writes only to the article and category tables: every
snapshot row (including the restored one), every personal backup, the
contributor counters and the maintenance metadata are unchanged, and the
same snapshot can immediately be restored again with `ok` (unlike a
personal-backup restore, which deletes the consumed backup row). -/
theorem claim_C10_snapshot_restore_frame :
    ∀ db g sid now db2, restoreSnapshot db g sid now = ("ok", db2) →
      db2.snapshots = db.snapshots ∧ db2.backups = db.backups ∧
      db2.contributors = db.contributors ∧
      db2.last_cleanup_at = db.last_cleanup_at ∧
      db2.next_backup_id = db.next_backup_id ∧
      db2.next_snapshot_id = db.next_snapshot_id ∧
      (restoreSnapshot db2 g sid now).1 = "ok" := by
  intro db g sid now db2 h
  unfold restoreSnapshot at h
  split at h
  · exact absurd (show "not_found" = "ok" from congrArg (fun p => p.1) h) (by decide)
  · rename_i s hs
    simp only [] at h
    injection h with h1 h2
    subst h2
    have hfr := resolveCategory_frame db g s.category_name
    have hsnap : (if restoreTargetExists (resolveCategory db g s.category_name).2
          s.article_id then
        snapOverwriteArticle (resolveCategory db g s.category_name).2
          (resolveCategory db g s.category_name).1 s now
      else snapInsertArticle (resolveCategory db g s.category_name).2 g
          (resolveCategory db g s.category_name).1 s now).snapshots
        = db.snapshots := by
      split
      · exact hfr.2.2.1
      · exact hfr.2.2.1
    have hback : (if restoreTargetExists (resolveCategory db g s.category_name).2
          s.article_id then
        snapOverwriteArticle (resolveCategory db g s.category_name).2
          (resolveCategory db g s.category_name).1 s now
      else snapInsertArticle (resolveCategory db g s.category_name).2 g
          (resolveCategory db g s.category_name).1 s now).backups
        = db.backups := by
      split
      · exact hfr.2.1
      · exact hfr.2.1
    refine ⟨hsnap, hback, ?_, ?_, ?_, ?_, ?_⟩
    · split
      · exact hfr.2.2.2.1
      · exact hfr.2.2.2.1
    · split
      · exact hfr.2.2.2.2.1
      · exact hfr.2.2.2.2.1
    · split
      · exact hfr.2.2.2.2.2.2.1
      · exact hfr.2.2.2.2.2.2.1
    · split
      · exact hfr.2.2.2.2.2.2.2
      · exact hfr.2.2.2.2.2.2.2
    · have hfind2 : (if restoreTargetExists (resolveCategory db g s.category_name).2
            s.article_id then
          snapOverwriteArticle (resolveCategory db g s.category_name).2
            (resolveCategory db g s.category_name).1 s now
        else snapInsertArticle (resolveCategory db g s.category_name).2 g
            (resolveCategory db g s.category_name).1 s now).snapshots.find?
          (fun x => x.id == sid && x.guild_id == g) = some s := by
        rw [hsnap]
        exact hs
      unfold restoreSnapshot
      rw [hfind2]

/-- Concrete store for the snapshot-restore witness: one snapshot of the
live article. -/
def wdb7 : DB :=
  ⟨[⟨1, 10, "wcat", none⟩], [⟨1, 10, 1, "wt", "wc", some 7, some "wu", 50, 50⟩], [],
    [],
    [⟨1, 10, some 1, "wcat", "wt", "v0", some 7, some "wu", some 50, some 50, 90⟩],
    none, 2, 2, 1, 2⟩

theorem claim_C10_snapshot_restore_frame_witness :
    (restoreSnapshot wdb7 10 1 500).2.snapshots = wdb7.snapshots ∧
    (restoreSnapshot wdb7 10 1 500).2.backups = wdb7.backups ∧
    (restoreSnapshot wdb7 10 1 500).2.contributors = wdb7.contributors ∧
    (restoreSnapshot wdb7 10 1 500).2.last_cleanup_at = wdb7.last_cleanup_at ∧
    (restoreSnapshot wdb7 10 1 500).2.next_backup_id = wdb7.next_backup_id ∧
    (restoreSnapshot wdb7 10 1 500).2.next_snapshot_id = wdb7.next_snapshot_id ∧
    (restoreSnapshot (restoreSnapshot wdb7 10 1 500).2 10 1 500).1 = "ok" :=
  claim_C10_snapshot_restore_frame wdb7 10 1 500 (restoreSnapshot wdb7 10 1 500).2
    (by decide)

end CitadelWiki
